import Mathlib

/-!
Shallow embedding of the `denwa-tiny` dependency-injection container
(`src/container.ts`, the `TinyContainer` version, together with
`src/types.ts`, `src/utils.ts` and `src/reflection.ts`).

JavaScript values are modelled by `JsValue` (with its truthiness rules),
resolve keys and lookup keys by inductives mirroring `ResolveKey` /
`LookupKey`, the registry by an insertion-ordered association list, and the
scope tree by a list of scope records indexed by scope id.  Resolution is a
fuel-indexed structurally recursive function so that it can be evaluated by
the kernel on concrete worlds.
-/

deriving instance DecidableEq for Except

namespace Tiny

/-- A JavaScript runtime value, as far as the container can observe it.
Objects are identified by an allocation id so that identity (`===`) of two
objects is equality of ids. -/
inductive JsValue where
  | undef : JsValue
  | null : JsValue
  | bool (b : Bool) : JsValue
  | num (n : Int) : JsValue
  | str (s : String) : JsValue
  | obj (id : Nat) : JsValue
deriving DecidableEq, Repr

/-- JavaScript truthiness of a value (`if(value)`): `undefined`, `null`,
`false`, `0` and the empty string are falsy, every object is truthy. -/
def JsValue.truthy : JsValue → Bool
  | .undef => false
  | .null => false
  | .bool b => b
  | .num n => n != 0
  | .str s => s != ""
  | .obj _ => true

/-- The `LookupKey` from `types.ts`: `string | Symbol | Class`.  Symbols and
classes are reference-identified, modelled by `Nat` ids. -/
inductive LookupKey where
  | str (s : String) : LookupKey
  | sym (id : Nat) : LookupKey
  | cls (id : Nat) : LookupKey
deriving DecidableEq, Repr

/-- The `isConstructor` from `reflection.ts`: true exactly on class-constructor
functions (string and symbol keys are not functions). -/
def isConstructor : LookupKey → Bool
  | .cls _ => true
  | _ => false

/-- The `ResolveKey` from `types.ts`: either a raw `LookupKey` or one of the three
wrapped keys (`StringKeyWrapper`, `SymbolKeyWrapper`, `ClassKeyWrapper`). -/
inductive ResolveKey where
  | str (s : String) : ResolveKey
  | sym (id : Nat) : ResolveKey
  | cls (id : Nat) : ResolveKey
  | stringKeyWrapper (name : String) : ResolveKey
  | symbolKeyWrapper (id : Nat) : ResolveKey
  | classKeyWrapper (id : Nat) : ResolveKey
deriving DecidableEq, Repr

/-- The `getLookupKey` from `utils.ts`: unwrap a wrapped key to its underlying
raw key, and pass raw keys through unchanged. -/
def getLookupKey : ResolveKey → LookupKey
  | .str s => .str s
  | .sym i => .sym i
  | .cls i => .cls i
  | .stringKeyWrapper s => .str s
  | .symbolKeyWrapper i => .sym i
  | .classKeyWrapper i => .cls i

/-- JavaScript truthiness of a `ResolveKey` value (used by the
`!resolveParameter.key` check in `ClassValueProvider.resolve`): only the raw
empty string is falsy; symbols, functions and wrapper objects are truthy. -/
def ResolveKey.truthy : ResolveKey → Bool
  | .str s => s != ""
  | _ => true

/-- JavaScript truthiness of the optional `tag` argument (`if(tag)`):
`undefined` and the empty string are falsy. -/
def tagTruthy : Option String → Bool
  | none => false
  | some t => t != ""

/-- The `Lifetime` from `types.ts`. -/
inductive Lifetime where
  | transient : Lifetime
  | scope : Lifetime
  | single : Lifetime
deriving DecidableEq, Repr

/-- A `Provider` (`types.ts`): the three provider shapes the container
actually executes.  `const v` is a constant provider (value registrations
and constant callbacks), `fresh` is a callback allocating a new object on
every invocation, `countUp` is a stateful callback returning the world's
counter and then incrementing it, and `classProvider c` is
`ClassValueProvider` for class id `c`. -/
inductive Provider where
  | const (v : JsValue) : Provider
  | fresh : Provider
  | countUp : Provider
  | classProvider (c : Nat) : Provider
deriving DecidableEq, Repr

/-- A `Registration` record (`types.ts`). -/
structure Registration where
  id : Nat
  key : ResolveKey
  lifetime : Lifetime
  tag : Option String
  provider : Provider
deriving DecidableEq, Repr

/-- The registry's backing `Map<LookupKey, Registration[]>`, as an
insertion-ordered association list with unique keys. -/
structure Registry where
  items : List (LookupKey × List Registration)
deriving DecidableEq, Repr

/-- Lookup in an association list by decidable equality on the key (the
behaviour of `Map.get`). -/
def assocGet {κ α : Type} [DecidableEq κ] (m : List (κ × α)) (k : κ) :
    Option α :=
  match m.find? (fun p => p.1 = k) with
  | none => none
  | some p => some p.2

def Registry.empty : Registry := ⟨[]⟩

/-- The `Registry.set`: append the registration to the list for `key`, creating
the list if absent; never removes or replaces prior entries. -/
def Registry.set (r : Registry) (k : LookupKey) (reg : Registration) : Registry :=
  match assocGet r.items k with
  | none => ⟨r.items ++ [(k, [reg])]⟩
  | some _ => ⟨r.items.map (fun p => if p.1 = k then (p.1, p.2 ++ [reg]) else p)⟩

/-- The `Registry.get`: with a truthy tag, scan the list from the end for the
first registration whose `tag` strictly equals the given tag; with no tag
(or a falsy one) return the last element of the list. -/
def Registry.get (r : Registry) (k : LookupKey) (tag : Option String) :
    Option Registration :=
  match assocGet r.items k with
  | none => none
  | some list =>
    if tagTruthy tag then list.reverse.find? (fun reg => reg.tag = tag)
    else list.getLast?

/-- The `Registry.has`: with a truthy tag, the boolean form of `get`; otherwise
just whether the map has the key. -/
def Registry.has (r : Registry) (k : LookupKey) (tag : Option String) : Bool :=
  if tagTruthy tag then (r.get k tag).isSome
  else (assocGet r.items k).isSome

/-- The per-scope cache `Map<LookupKey, Map<string, any>>`. -/
abbrev Cache := List (LookupKey × List (String × JsValue))

/-- Lookup in the inner `Map<string, any>`. -/
def innerGet (m : List (String × JsValue)) (t : String) : Option JsValue :=
  assocGet m t

/-- Set in the inner `Map<string, any>` (replace in place or append). -/
def innerSet (m : List (String × JsValue)) (t : String) (v : JsValue) :
    List (String × JsValue) :=
  match innerGet m t with
  | none => m ++ [(t, v)]
  | some _ => m.map (fun p => if p.1 = t then (p.1, v) else p)

/-- The `TinyContainer.getScopeValue`: read the cache at `(key, tag ?? '')`,
giving `undefined` when either map level is missing. -/
def getScopeValue (c : Cache) (k : LookupKey) (tag : Option String) : JsValue :=
  match assocGet c k with
  | none => .undef
  | some values =>
    match innerGet values (tag.getD "") with
    | none => .undef
    | some v => v

/-- Whether the cache holds an entry at `(key, tag ?? '')` — distinguishes a
stored `undefined` from a missing entry (observable in the map's contents,
not through `getScopeValue`). -/
def cacheHasEntry (c : Cache) (k : LookupKey) (tag : Option String) : Bool :=
  match assocGet c k with
  | none => false
  | some values => (innerGet values (tag.getD "")).isSome

/-- The `TinyContainer.setScopeValue`: write the cache at `(key, tag ?? '')`,
creating the inner map when missing. -/
def setScopeValue (c : Cache) (k : LookupKey) (tag : Option String)
    (v : JsValue) : Cache :=
  match assocGet c k with
  | none => c ++ [(k, [(tag.getD "", v)])]
  | some _ =>
    c.map (fun p => if p.1 = k then (p.1, innerSet p.2 (tag.getD "") v) else p)

/-- The resolve information a parameter decorator attaches to one
constructor parameter (`ParameterResolveInfo` in `decorators.ts`). -/
structure ParameterResolveInfo where
  key : Option ResolveKey
  tag : Option String
deriving DecidableEq, Repr

/-- Static description of a class constructor: its `name`, its `length`
(declared arity), the `ClassResolveInfo.parameters` map supplied by the
external metadata collaborator, and the declared parameter names
(the output of the source-text regex used by `getParamterName`). -/
structure ClassInfo where
  name : String
  arity : Nat
  params : List (Nat × ParameterResolveInfo)
  paramNames : List String
deriving DecidableEq, Repr

/-- The `getParamterName` from `reflection.ts`: the declared name at `index`
when the regex produced one, otherwise the positional placeholder. -/
def getParamterName (ci : ClassInfo) (i : Nat) : String :=
  match ci.paramNames[i]? with
  | some n => n
  | none => "parameter#" ++ toString i

/-- One scope (`TinyContainer` instance): its registry, its private cache,
its parent (absent only for a root) and its stored `root` reference. -/
structure ScopeData where
  registry : Registry
  cache : Cache
  parent : Option Nat
  root : Nat
deriving DecidableEq, Repr

/-- The whole mutable state: all scopes (a scope id is an index into
`scopes`), the class-metadata table, the object-allocation counter and the
closure counter backing `Provider.countUp`. -/
structure World where
  scopes : List ScopeData
  classes : List ClassInfo
  nextObj : Nat
  counter : Int
deriving DecidableEq, Repr

/-- The `new TinyContainer()` with no parent: a fresh root scope. -/
def World.newRoot (w : World) : World :=
  { w with scopes := w.scopes ++ [⟨Registry.empty, [], none, w.scopes.length⟩] }

/-- The `TinyContainer.createScope`: a fresh child of scope `pid`, with an empty
registry and cache, parent `pid` and the parent's root. -/
def World.createScope (w : World) (pid : Nat) : World :=
  match w.scopes[pid]? with
  | none => w
  | some pd =>
    { w with scopes := w.scopes ++ [⟨Registry.empty, [], some pid, pd.root⟩] }

/-- The `TinyContainer.register`: add a registration to scope `sid`'s registry
under the lookup key of its resolve key. -/
def World.register (w : World) (sid : Nat) (reg : Registration) : World :=
  match w.scopes[sid]? with
  | none => w
  | some sd =>
    { w with
      scopes := w.scopes.set sid
        { sd with registry := sd.registry.set (getLookupKey reg.key) reg } }

/-- The `this.root` field of scope `sid`. -/
def World.rootOf (w : World) (sid : Nat) : Nat :=
  match w.scopes[sid]? with
  | none => sid
  | some sd => sd.root

/-- The `getScopeValue` on scope `sid`'s cache. -/
def World.scopeValue (w : World) (sid : Nat) (k : LookupKey)
    (tag : Option String) : JsValue :=
  match w.scopes[sid]? with
  | none => .undef
  | some sd => getScopeValue sd.cache k tag

/-- The `setScopeValue` on scope `sid`'s cache. -/
def World.cacheSet (w : World) (sid : Nat) (k : LookupKey)
    (tag : Option String) (v : JsValue) : World :=
  match w.scopes[sid]? with
  | none => w
  | some sd =>
    { w with
      scopes := w.scopes.set sid
        { sd with cache := setScopeValue sd.cache k tag v } }

/-- The errors the resolution path can raise, with their diagnostic
payloads (`errors.ts`).  `injectFail` is the wrapping `ResolveError` thrown
by `ClassValueProvider.resolve` when injecting one parameter fails; it
carries the underlying error as its `cause`. -/
inductive RError where
  | notFound (key : ResolveKey) (tag : Option String) : RError
  | missingMetadata (clsId : Nat) (key : ResolveKey) (tag : Option String) :
      RError
  | invalidParameter (className : String) (parameterIndex : Nat)
      (parameterName : Option String) : RError
  | injectFail (clsId : Nat) (key : ResolveKey) (tag : Option String)
      (parameterIndex : Nat) (parameterName : String)
      (parameterType : Option ResolveKey) (cause : RError) : RError
  | invalidClass (clsId : Nat) : RError
  | fuelExhausted : RError
deriving DecidableEq, Repr

/-- Follow the `cause` chain of wrapped injection failures down to the
original error. -/
def RError.rootCause : RError → RError
  | .injectFail _ _ _ _ _ _ cause => cause.rootCause
  | e => e

/-- The `while(scope)` loop of `TinyContainer.resolveInner`: starting at
`sid`, ask each scope's registry in turn, walking `parent` links, until a
registration is found or the chain is exhausted.  Fuelled; in a well-formed
world a fuel of `w.scopes.length` always suffices because parent ids
strictly decrease. -/
def findRegistration : Nat → World → Nat → LookupKey → Option String →
    Option (Nat × Registration)
  | 0, _, _, _, _ => none
  | fuel + 1, w, sid, lookup, tag =>
    match w.scopes[sid]? with
    | none => none
    | some sd =>
      match sd.registry.get lookup tag with
      | some reg => some (sid, reg)
      | none =>
        match sd.parent with
        | none => none
        | some pid => findRegistration fuel w pid lookup tag

/-- The type of the bound `context.resolve` callback: re-enters the public
resolve at the originating scope. -/
abbrev ResolverFn :=
  ResolveKey → Option String → World → World × Except RError JsValue

/-- One iteration of the `try` body inside `ClassValueProvider.resolve`'s
parameter loop: look up the parameter's resolve info in the metadata map,
fail on a missing entry or a missing/falsy key, otherwise resolve the
parameter's key and tag through the context's `resolve` callback. -/
def paramAttempt (resolver : ResolverFn) (ci : ClassInfo) (i : Nat)
    (w : World) : World × Except RError JsValue :=
  match assocGet ci.params i with
  | none => (w, .error (.invalidParameter ci.name i none))
  | some p =>
    match p.key with
    | none =>
      (w, .error (.invalidParameter ci.name i (some (getParamterName ci i))))
    | some pk =>
      if pk.truthy then resolver pk p.tag w
      else
        (w, .error (.invalidParameter ci.name i (some (getParamterName ci i))))

/-- The parameter loop of `ClassValueProvider.resolve`: run `paramAttempt`
for each parameter index in order, and on any failure wrap the error in a
`ResolveError` naming the class, the parameter name and index, and the
parameter's resolve key, with the failure attached as `cause`. -/
def resolveParams (resolver : ResolverFn) (ci : ClassInfo) (c : Nat)
    (key : ResolveKey) (tag : Option String) :
    List Nat → World → World × Except RError (List JsValue)
  | [], w => (w, .ok [])
  | i :: rest, w =>
    match paramAttempt resolver ci i w with
    | (w', .error e) =>
      (w', .error (.injectFail c key tag i (getParamterName ci i)
        ((assocGet ci.params i).bind ParameterResolveInfo.key) e))
    | (w', .ok v) =>
      match resolveParams resolver ci c key tag rest w' with
      | (w'', .ok vs) => (w'', .ok (v :: vs))
      | (w'', .error e) => (w'', .error e)

/-- The `ClassValueProvider.resolve`: construct immediately for an arity-0
constructor; fail with the missing-metadata `ResolveError` when the
constructor requires arguments but the metadata map is empty; otherwise
resolve every parameter in index order and construct a fresh instance. -/
def classResolveWith (resolver : ResolverFn) (classes : List ClassInfo)
    (c : Nat) (key : ResolveKey) (tag : Option String) (w : World) :
    World × Except RError JsValue :=
  match classes[c]? with
  | none => (w, .error (.invalidClass c))
  | some ci =>
    if ci.arity = 0 then
      ({ w with nextObj := w.nextObj + 1 }, .ok (.obj w.nextObj))
    else if ci.params.length = 0 then
      (w, .error (.missingMetadata c key tag))
    else
      match resolveParams resolver ci c key tag
          (List.range ci.params.length) w with
      | (w', .error e) => (w', .error e)
      | (w', .ok _) =>
        ({ w' with nextObj := w'.nextObj + 1 }, .ok (.obj w'.nextObj))

/-- Execute a registration's provider with the resolve context (whose
`resolve` callback is bound to the originating scope). -/
def runProvider (resolver : ResolverFn) (classes : List ClassInfo)
    (prov : Provider) (key : ResolveKey) (tag : Option String) (w : World) :
    World × Except RError JsValue :=
  match prov with
  | .const v => (w, .ok v)
  | .fresh => ({ w with nextObj := w.nextObj + 1 }, .ok (.obj w.nextObj))
  | .countUp => ({ w with counter := w.counter + 1 }, .ok (.num w.counter))
  | .classProvider c => classResolveWith resolver classes c key tag w

/-- The `TinyContainer.resolveInner`, parameterized by the bound `resolve`
callback: walk the scope chain for a registration; with none found apply
the auto-wiring fallback when no tag was supplied and the lookup key is a
constructor, else produce `undefined`; with one found dispatch on its
lifetime — `single` consults and writes the root scope's cache, `transient`
always runs the provider, `scope` consults and writes the originating
scope's cache.  A cached value counts only when truthy. -/
def resolveInnerWith (resolver : ResolverFn) (w : World) (origin : Nat)
    (key : ResolveKey) (tag : Option String) :
    World × Except RError JsValue :=
  match findRegistration w.scopes.length w origin (getLookupKey key) tag with
  | none =>
    match tag, getLookupKey key with
    | none, .cls c => classResolveWith resolver w.classes c key tag w
    | _, _ => (w, .ok .undef)
  | some (_, reg) =>
    match reg.lifetime with
    | .single =>
      if (w.scopeValue (w.rootOf origin) (getLookupKey key) tag).truthy then
        (w, .ok (w.scopeValue (w.rootOf origin) (getLookupKey key) tag))
      else
        match runProvider resolver w.classes reg.provider key tag w with
        | (w', .error e) => (w', .error e)
        | (w', .ok v) =>
          (w'.cacheSet (w.rootOf origin) (getLookupKey key) tag v, .ok v)
    | .transient => runProvider resolver w.classes reg.provider key tag w
    | .scope =>
      if (w.scopeValue origin (getLookupKey key) tag).truthy then
        (w, .ok (w.scopeValue origin (getLookupKey key) tag))
      else
        match runProvider resolver w.classes reg.provider key tag w with
        | (w', .error e) => (w', .error e)
        | (w', .ok v) => (w'.cacheSet origin (getLookupKey key) tag v, .ok v)

/-- The `TinyContainer.resolve`: run `resolveInner` with a context whose
`resolve` callback re-enters this function at the originating scope; raise
the not-found `ResolveError` (carrying the key and tag) exactly when the
inner resolution produced `undefined`.  Fuel bounds the re-entrancy
depth. -/
def resolveF : Nat → Nat → ResolveKey → Option String → World →
    World × Except RError JsValue
  | 0, _, _, _, w => (w, .error .fuelExhausted)
  | fuel + 1, origin, key, tag, w =>
    match resolveInnerWith (fun k t w' => resolveF fuel origin k t w')
        w origin key tag with
    | (w', .error e) => (w', .error e)
    | (w', .ok v) =>
      if v = .undef then (w', .error (.notFound key tag))
      else (w', .ok v)

/-- The registry's current list for a key (empty when absent). -/
def Registry.listFor (r : Registry) (k : LookupKey) : List Registration :=
  (assocGet r.items k).getD []

/-- World-level form of `cacheHasEntry`. -/
def World.hasCacheEntry (w : World) (sid : Nat) (k : LookupKey)
    (tag : Option String) : Bool :=
  match w.scopes[sid]? with
  | none => false
  | some sd => cacheHasEntry sd.cache k tag

/-- The root cause of a resolution error, when the result is an error. -/
def resultRootCause : Except RError JsValue → Option RError
  | .error e => some e.rootCause
  | .ok _ => none

section AssocLemmas

variable {κ α : Type} [DecidableEq κ]

theorem assocGet_nil (k : κ) : assocGet ([] : List (κ × α)) k = none := rfl

theorem assocGet_cons (p : κ × α) (m : List (κ × α)) (k : κ) :
    assocGet (p :: m) k = if p.1 = k then some p.2 else assocGet m k := by
  by_cases h : p.1 = k
  · simp [assocGet, List.find?_cons_of_pos, h]
  · simp [assocGet, List.find?_cons_of_neg, h]

theorem assocGet_append (m m' : List (κ × α)) (k : κ) :
    assocGet (m ++ m') k =
      match assocGet m k with
      | some v => some v
      | none => assocGet m' k := by
  induction m with
  | nil => simp [assocGet_nil]
  | cons p m ih =>
    by_cases h : p.1 = k <;> simp [assocGet_cons, h, ih]

theorem assocGet_updateIn (m : List (κ × α)) (k : κ) (g : α → α) :
    assocGet (m.map fun p => if p.1 = k then (p.1, g p.2) else p) k =
      (assocGet m k).map g := by
  induction m with
  | nil => rfl
  | cons p m ih =>
    by_cases h : p.1 = k
    · simp [assocGet_cons, h]
    · simp [assocGet_cons, h, ih]

theorem assocGet_updateIn_ne (m : List (κ × α)) (k k' : κ) (g : α → α)
    (h : k' ≠ k) :
    assocGet (m.map fun p => if p.1 = k then (p.1, g p.2) else p) k' =
      assocGet m k' := by
  induction m with
  | nil => rfl
  | cons p m ih =>
    simp only [List.map_cons, assocGet_cons]
    by_cases hp : p.1 = k
    · rw [if_pos hp]
      have h2 : ¬ ((p.1, g p.2).1 = k') := by
        simp only []
        rw [hp]
        exact fun hc => h hc.symm
      rw [if_neg h2, ih]
      rw [if_neg (by rw [hp] at h2 ⊢; exact h2)]
    · rw [if_neg hp]
      by_cases hp' : p.1 = k' <;> simp [hp', ih]

end AssocLemmas

theorem registry_set_self (r : Registry) (k : LookupKey) (reg : Registration) :
    assocGet (r.set k reg).items k = some (r.listFor k ++ [reg]) := by
  unfold Registry.set Registry.listFor
  cases h : assocGet r.items k with
  | none =>
    have hap := assocGet_append r.items [(k, [reg])] k
    simp only [h] at hap
    simp [h, hap, assocGet_cons]
  | some list =>
    have hup := assocGet_updateIn r.items k (fun l => l ++ [reg])
    simp only [h, Option.map_some] at hup
    simp [h, hup]

theorem registry_set_other (r : Registry) (k k' : LookupKey)
    (reg : Registration) (h : k' ≠ k) :
    assocGet (r.set k reg).items k' = assocGet r.items k' := by
  unfold Registry.set
  cases hk : assocGet r.items k with
  | none =>
    have hap := assocGet_append r.items [(k, [reg])] k'
    have hkk : ¬ (k = k') := fun hc => h hc.symm
    cases hk' : assocGet r.items k' with
    | none => simp only [hap, hk']; simp [assocGet_cons, hkk, assocGet_nil]
    | some l => simp only [hap, hk']
  | some list => exact assocGet_updateIn_ne r.items k k' (fun l => l ++ [reg]) h

theorem innerGet_innerSet_same (m : List (String × JsValue)) (t : String)
    (v : JsValue) : innerGet (innerSet m t v) t = some v := by
  unfold innerSet innerGet
  cases h : assocGet m t with
  | none =>
    have hap := assocGet_append m [(t, v)] t
    simp only [h] at hap
    simp [h, hap, assocGet_cons]
  | some v' =>
    have hup := assocGet_updateIn m t (fun _ => v)
    simp only [h, Option.map_some] at hup
    simp [h, hup]

theorem getScopeValue_set_same (c : Cache) (k : LookupKey)
    (tag : Option String) (v : JsValue) :
    getScopeValue (setScopeValue c k tag v) k tag = v := by
  unfold setScopeValue
  cases h : assocGet c k with
  | none =>
    unfold getScopeValue
    have hap := assocGet_append c [(k, [(tag.getD "", v)])] k
    simp only [h] at hap
    rw [hap, assocGet_cons]
    simp [innerGet, assocGet_cons]
  | some values =>
    unfold getScopeValue
    have hup := assocGet_updateIn c k (fun vs => innerSet vs (tag.getD "") v)
    simp only [h, Option.map_some] at hup
    simp [hup, innerGet_innerSet_same]

theorem cacheHasEntry_set_same (c : Cache) (k : LookupKey)
    (tag : Option String) (v : JsValue) :
    cacheHasEntry (setScopeValue c k tag v) k tag = true := by
  unfold setScopeValue
  cases h : assocGet c k with
  | none =>
    unfold cacheHasEntry
    have hap := assocGet_append c [(k, [(tag.getD "", v)])] k
    simp only [h] at hap
    rw [hap, assocGet_cons]
    simp [innerGet, assocGet_cons]
  | some values =>
    unfold cacheHasEntry
    have hup := assocGet_updateIn c k (fun vs => innerSet vs (tag.getD "") v)
    simp only [h, Option.map_some] at hup
    simp [hup, innerGet_innerSet_same]

theorem cacheSet_getElem? (w : World) (sid : Nat) (k : LookupKey)
    (tag : Option String) (v : JsValue) (j : Nat) :
    (w.cacheSet sid k tag v).scopes[j]? =
      if j = sid then
        (w.scopes[j]?).map fun sd =>
          { sd with cache := setScopeValue sd.cache k tag v }
      else w.scopes[j]? := by
  unfold World.cacheSet
  cases h : w.scopes[sid]? with
  | none =>
    by_cases hj : j = sid
    · subst hj; simp [h]
    · simp [hj]
  | some sd =>
    by_cases hj : j = sid
    · subst hj
      have hlt : j < w.scopes.length := by
        by_contra hge
        rw [List.getElem?_eq_none (Nat.le_of_not_lt hge)] at h
        exact Option.noConfusion h
      simp [List.getElem?_set_eq_of_lt _ hlt, h]
    · simp [List.getElem?_set_ne (fun hc => hj hc.symm), hj]

theorem cacheSet_length (w : World) (sid : Nat) (k : LookupKey)
    (tag : Option String) (v : JsValue) :
    (w.cacheSet sid k tag v).scopes.length = w.scopes.length := by
  unfold World.cacheSet
  cases h : w.scopes[sid]? <;> simp

theorem scopeValue_cacheSet_same (w : World) (sid : Nat) (k : LookupKey)
    (tag : Option String) (v : JsValue) (h : sid < w.scopes.length) :
    (w.cacheSet sid k tag v).scopeValue sid k tag = v := by
  unfold World.scopeValue
  rw [cacheSet_getElem?]
  rw [if_pos rfl]
  rw [List.getElem?_eq_getElem h]
  simp [getScopeValue_set_same]

theorem scopeValue_cacheSet_other (w : World) (sid s : Nat) (k k' : LookupKey)
    (tag tag' : Option String) (v : JsValue) (h : s ≠ sid) :
    (w.cacheSet sid k tag v).scopeValue s k' tag' = w.scopeValue s k' tag' := by
  unfold World.scopeValue
  rw [cacheSet_getElem?, if_neg h]

theorem hasCacheEntry_cacheSet_same (w : World) (sid : Nat) (k : LookupKey)
    (tag : Option String) (v : JsValue) (h : sid < w.scopes.length) :
    (w.cacheSet sid k tag v).hasCacheEntry sid k tag = true := by
  unfold World.hasCacheEntry
  rw [cacheSet_getElem?, if_pos rfl, List.getElem?_eq_getElem h]
  simp [cacheHasEntry_set_same]

/-- The resolution-invariant part of one scope: its registry and its
position in the tree.  Resolution may write caches and allocate objects but
never changes this shape. -/
def scopeShape (sd : ScopeData) : Registry × Option Nat × Nat :=
  (sd.registry, sd.parent, sd.root)

/-- Two worlds with identical scope shapes (registries and tree structure),
differing at most in caches and counters. -/
structure ShapeEq (w w' : World) : Prop where
  shapes : ∀ j : Nat,
    w.scopes[j]?.map scopeShape = w'.scopes[j]?.map scopeShape
  classesEq : w.classes = w'.classes

theorem ShapeEq.refl (w : World) : ShapeEq w w := ⟨fun _ => rfl, rfl⟩

theorem ShapeEq.trans {w1 w2 w3 : World} (h1 : ShapeEq w1 w2)
    (h2 : ShapeEq w2 w3) : ShapeEq w1 w3 :=
  ⟨fun j => (h1.shapes j).trans (h2.shapes j), h1.classesEq.trans h2.classesEq⟩

theorem ShapeEq.isSome {w w' : World} (h : ShapeEq w w') (j : Nat) :
    (w.scopes[j]?).isSome = (w'.scopes[j]?).isSome := by
  have hk := h.shapes j
  cases h1 : w.scopes[j]? <;> cases h2 : w'.scopes[j]? <;>
    rw [h1, h2] at hk <;> simp_all

theorem ShapeEq.length {w w' : World} (h : ShapeEq w w') :
    w.scopes.length = w'.scopes.length := by
  rcases Nat.lt_trichotomy w.scopes.length w'.scopes.length with hlt | heq | hgt
  · exfalso
    have hs := h.isSome w.scopes.length
    rw [List.getElem?_eq_none (Nat.le_refl _), List.getElem?_eq_getElem hlt]
      at hs
    simp at hs
  · exact heq
  · exfalso
    have hs := h.isSome w'.scopes.length
    rw [List.getElem?_eq_getElem hgt, List.getElem?_eq_none (Nat.le_refl _)]
      at hs
    simp at hs

theorem ShapeEq.of_scopes_eq {w w' : World} (hs : w.scopes = w'.scopes)
    (hc : w.classes = w'.classes) : ShapeEq w w' :=
  ⟨fun j => by rw [hs], hc⟩

theorem cacheSet_shapeEq (w : World) (sid : Nat) (k : LookupKey)
    (tag : Option String) (v : JsValue) :
    ShapeEq (w.cacheSet sid k tag v) w := by
  refine ⟨fun j => ?_, ?_⟩
  · rw [cacheSet_getElem?]
    by_cases hj : j = sid
    · rw [if_pos hj]
      cases w.scopes[j]? <;> rfl
    · rw [if_neg hj]
  · unfold World.cacheSet
    cases h : w.scopes[sid]? <;> rfl

theorem findRegistration_shapeEq {w w' : World} (h : ShapeEq w w') :
    ∀ fuel sid lookup tag,
      findRegistration fuel w sid lookup tag =
        findRegistration fuel w' sid lookup tag := by
  intro fuel
  induction fuel with
  | zero => intro sid l t; rfl
  | succ fuel ih =>
    intro sid l t
    have hj := h.shapes sid
    cases hw : w.scopes[sid]? with
    | none =>
      rw [hw] at hj
      cases hw' : w'.scopes[sid]? with
      | none => simp only [findRegistration, hw, hw']
      | some sd' => rw [hw'] at hj; exact Option.noConfusion hj
    | some sd =>
      rw [hw] at hj
      cases hw' : w'.scopes[sid]? with
      | none => rw [hw'] at hj; exact Option.noConfusion hj
      | some sd' =>
        rw [hw'] at hj
        have hsh : scopeShape sd = scopeShape sd' := Option.some.inj hj
        have hreg : sd.registry = sd'.registry := congrArg Prod.fst hsh
        have hpar : sd.parent = sd'.parent := congrArg (fun q => q.2.1) hsh
        simp only [findRegistration, hw, hw', hreg, hpar]
        cases sd'.registry.get l t with
        | some reg => rfl
        | none =>
          cases sd'.parent with
          | none => rfl
          | some pid => exact ih pid l t

theorem rootOf_shapeEq {w w' : World} (h : ShapeEq w w') (sid : Nat) :
    w.rootOf sid = w'.rootOf sid := by
  unfold World.rootOf
  have hj := h.shapes sid
  cases hw : w.scopes[sid]? with
  | none =>
    rw [hw] at hj
    cases hw' : w'.scopes[sid]? with
    | none => rfl
    | some sd' => rw [hw'] at hj; exact Option.noConfusion hj
  | some sd =>
    rw [hw] at hj
    cases hw' : w'.scopes[sid]? with
    | none => rw [hw'] at hj; exact Option.noConfusion hj
    | some sd' =>
      rw [hw'] at hj
      have hsh : scopeShape sd = scopeShape sd' := Option.some.inj hj
      exact congrArg (fun q => q.2.2) hsh

theorem paramAttempt_shape (resolver : ResolverFn)
    (hres : ∀ k t w, ShapeEq ((resolver k t w).1) w)
    (ci : ClassInfo) (i : Nat) (w : World) :
    ShapeEq ((paramAttempt resolver ci i w).1) w := by
  unfold paramAttempt
  split
  · exact ShapeEq.refl w
  · split
    · exact ShapeEq.refl w
    · split
      · exact hres _ _ w
      · exact ShapeEq.refl w

theorem resolveParams_shape (resolver : ResolverFn)
    (hres : ∀ k t w, ShapeEq ((resolver k t w).1) w)
    (ci : ClassInfo) (c : Nat) (key : ResolveKey) (tag : Option String) :
    ∀ idxs w, ShapeEq ((resolveParams resolver ci c key tag idxs w).1) w := by
  intro idxs
  induction idxs with
  | nil => intro w; exact ShapeEq.refl w
  | cons i rest ih =>
    intro w
    simp only [resolveParams]
    split
    · rename_i w' e heq
      have hh := paramAttempt_shape resolver hres ci i w
      rw [heq] at hh
      exact hh
    · rename_i w' v heq
      have hh := paramAttempt_shape resolver hres ci i w
      rw [heq] at hh
      split
      · rename_i w2 vs heq2
        have hh2 := ih w'
        rw [heq2] at hh2
        exact hh2.trans hh
      · rename_i w2 e heq2
        have hh2 := ih w'
        rw [heq2] at hh2
        exact hh2.trans hh

theorem classResolveWith_shape (resolver : ResolverFn)
    (hres : ∀ k t w, ShapeEq ((resolver k t w).1) w)
    (classes : List ClassInfo) (c : Nat) (key : ResolveKey)
    (tag : Option String) (w : World) :
    ShapeEq ((classResolveWith resolver classes c key tag w).1) w := by
  unfold classResolveWith
  split
  · exact ShapeEq.refl w
  · rename_i ci hc
    split
    · exact ShapeEq.of_scopes_eq rfl rfl
    · split
      · exact ShapeEq.refl w
      · split
        · rename_i w' e heq
          have hh := resolveParams_shape resolver hres ci c key tag
            (List.range ci.params.length) w
          rw [heq] at hh
          exact hh
        · rename_i w' vs heq
          have hh := resolveParams_shape resolver hres ci c key tag
            (List.range ci.params.length) w
          rw [heq] at hh
          exact ShapeEq.trans (@ShapeEq.of_scopes_eq _ w' rfl rfl) hh

theorem runProvider_shape (resolver : ResolverFn)
    (hres : ∀ k t w, ShapeEq ((resolver k t w).1) w)
    (classes : List ClassInfo) (prov : Provider) (key : ResolveKey)
    (tag : Option String) (w : World) :
    ShapeEq ((runProvider resolver classes prov key tag w).1) w := by
  unfold runProvider
  cases prov with
  | const v => exact ShapeEq.refl w
  | fresh => exact ShapeEq.of_scopes_eq rfl rfl
  | countUp => exact ShapeEq.of_scopes_eq rfl rfl
  | classProvider c => exact classResolveWith_shape resolver hres classes c key tag w

theorem resolveInnerWith_shape (resolver : ResolverFn)
    (hres : ∀ k t w, ShapeEq ((resolver k t w).1) w)
    (w : World) (origin : Nat) (key : ResolveKey) (tag : Option String) :
    ShapeEq ((resolveInnerWith resolver w origin key tag).1) w := by
  unfold resolveInnerWith
  split
  · split
    · exact classResolveWith_shape resolver hres w.classes _ key _ w
    · exact ShapeEq.refl w
  · rename_i sid reg hfind
    split
    · split
      · exact ShapeEq.refl w
      · split
        · rename_i w' e heq
          have hh := runProvider_shape resolver hres w.classes reg.provider key tag w
          rw [heq] at hh
          exact hh
        · rename_i w' v heq
          have hh := runProvider_shape resolver hres w.classes reg.provider key tag w
          rw [heq] at hh
          exact (cacheSet_shapeEq w' (w.rootOf origin) (getLookupKey key) tag v).trans hh
    · exact runProvider_shape resolver hres w.classes reg.provider key tag w
    · split
      · exact ShapeEq.refl w
      · split
        · rename_i w' e heq
          have hh := runProvider_shape resolver hres w.classes reg.provider key tag w
          rw [heq] at hh
          exact hh
        · rename_i w' v heq
          have hh := runProvider_shape resolver hres w.classes reg.provider key tag w
          rw [heq] at hh
          exact (cacheSet_shapeEq w' origin (getLookupKey key) tag v).trans hh

theorem resolveF_shape :
    ∀ (fuel origin : Nat) (key : ResolveKey) (tag : Option String) (w : World),
      ShapeEq ((resolveF fuel origin key tag w).1) w := by
  intro fuel
  induction fuel with
  | zero => intro o k t w; exact ShapeEq.refl w
  | succ fuel ih =>
    intro o k t w
    simp only [resolveF]
    split
    · rename_i w' e heq
      have hh := resolveInnerWith_shape _ (fun k2 t2 w2 => ih o k2 t2 w2) w o k t
      rw [heq] at hh
      exact hh
    · rename_i w' v heq
      have hh := resolveInnerWith_shape _ (fun k2 t2 w2 => ih o k2 t2 w2) w o k t
      rw [heq] at hh
      split
      · exact hh
      · exact hh

/-- A root scope whose registry holds two untagged registrations for the
string key `dup`: first a provider of `1`, then a provider of `2`. -/
def lastWinsW : World :=
  (((⟨[], [], 0, 0⟩ : World).newRoot).register 0
      ⟨1, .str "dup", .transient, none, .const (.num 1)⟩).register 0
    ⟨2, .str "dup", .transient, none, .const (.num 2)⟩

/-- C3: for every lookup identity, untagged registry lookup returns the last
registration inserted for that identity (appending for the same key makes
the new registration the untagged result, appending for a different key
leaves it unchanged, and an empty registry yields absent); consequently
registering the string key `dup` twice untagged and resolving it untagged
returns the second provider's value `2`, never the first provider's `1`. -/
theorem untagged_lookup_last_wins
    (r : Registry) (k k' : LookupKey) (reg : Registration) (hk : k' ≠ k) :
    ((r.set k reg).get k none = some reg)
    ∧ ((r.set k' reg).get k none = r.get k none)
    ∧ (Registry.empty.get k none = none)
    ∧ ((resolveF 2 0 (.str "dup") none lastWinsW).2 = .ok (.num 2))
    ∧ ((resolveF 2 0 (.str "dup") none lastWinsW).2 ≠ .ok (.num 1)) := by
  refine ⟨?_, ?_, rfl, by decide, by decide⟩
  · unfold Registry.get
    simp only [registry_set_self]
    simp [tagTruthy, List.getLast?_concat]
  · unfold Registry.get
    rw [registry_set_other r k' k reg (Ne.symm hk)]

/-- Witness for `untagged_lookup_last_wins` at a concrete registry. -/
theorem untagged_lookup_last_wins_witness :
    ((Registry.empty.set (.str "x")
        ⟨1, .str "x", .transient, none, .const .null⟩).get (.str "x") none
      = some ⟨1, .str "x", .transient, none, .const .null⟩) := by
  have h := untagged_lookup_last_wins Registry.empty (.str "x") (.sym 0)
    ⟨1, .str "x", .transient, none, .const .null⟩ (by decide)
  exact h.1

/-- A root scope with a single untagged registration (value `7`) for the
string key `k`. -/
def emptyTagW : World :=
  ((⟨[], [], 0, 0⟩ : World).newRoot).register 0
    ⟨1, .str "k", .transient, none, .const (.num 7)⟩

/-- The registry of `emptyTagW`'s root scope. -/
def emptyTagRegistry : Registry :=
  Registry.empty.set (.str "k") ⟨1, .str "k", .transient, none, .const (.num 7)⟩

/-- C4 counterexample: a tagged lookup with the empty-string tag returns the
untagged registration (because `if(tag)` treats `''` as no tag), and a
resolve with the unregistered tag `""` returns the untagged provider's value
instead of failing with NotFound. -/
theorem tagged_lookup_empty_tag_cex :
    (emptyTagRegistry.get (.str "k") (some "")
      = some ⟨1, .str "k", .transient, none, .const (.num 7)⟩)
    ∧ ((emptyTagRegistry.get (.str "k") (some "")).map Registration.tag
      = some none)
    ∧ ((resolveF 2 0 (.str "k") (some "") emptyTagW).2 = .ok (.num 7)) := by
  refine ⟨by decide, by decide, by decide⟩

/-- A root scope with an untagged registration (value `7`) and a tag-`"a"`
registration (value `8`) for the string key `k`. -/
def taggedW : World :=
  (((⟨[], [], 0, 0⟩ : World).newRoot).register 0
      ⟨1, .str "k", .transient, none, .const (.num 7)⟩).register 0
    ⟨2, .str "k", .transient, some "a", .const (.num 8)⟩

/-- C4 amended: for every non-empty tag, tagged registry lookup returns the
most-recently-inserted registration whose tag equals the given tag, returns
absent when no registration carries that tag, and never returns an untagged
registration; resolving with an unregistered non-empty tag fails with
NotFound even though untagged and differently-tagged registrations exist,
and a registered tag resolves to its own provider's value.  (A lookup with
the empty-string tag instead behaves exactly like an untagged lookup.) -/
theorem tagged_lookup_most_recent
    (r : Registry) (k : LookupKey) (t : String) (reg : Registration)
    (ht : t ≠ "") :
    ((r.set k reg).get k (some t)
      = if reg.tag = some t then some reg else r.get k (some t))
    ∧ (∀ reg', r.get k (some t) = some reg' → reg'.tag = some t)
    ∧ (Registry.empty.get k (some t) = none)
    ∧ ((resolveF 2 0 (.str "k") (some "b") taggedW).2
      = .error (.notFound (.str "k") (some "b")))
    ∧ ((resolveF 2 0 (.str "k") (some "a") taggedW).2 = .ok (.num 8)) := by
  have htt : tagTruthy (some t) = true := by simp [tagTruthy, ht]
  refine ⟨?_, ?_, rfl, by decide, by decide⟩
  · unfold Registry.get
    simp only [registry_set_self, htt, if_true]
    rw [List.reverse_append]
    simp only [List.reverse_cons, List.reverse_nil, List.nil_append,
      List.cons_append, List.find?]
    by_cases hr : reg.tag = some t
    · simp [hr]
    · have hd : (decide (reg.tag = some t)) = false := by simp [hr]
      simp only [hd]
      unfold Registry.listFor
      cases ha : assocGet r.items k with
      | none => simp [ha, hr]
      | some list => simp [ha, htt, hr]
  · intro reg' hr
    unfold Registry.get at hr
    cases ha : assocGet r.items k with
    | none => rw [ha] at hr; exact absurd hr (by simp)
    | some list =>
      rw [ha] at hr
      simp only [htt, if_true] at hr
      have := List.find?_some hr
      simpa using this

/-- Witness for `tagged_lookup_most_recent` at a concrete registry. -/
theorem tagged_lookup_most_recent_witness :
    (Registry.empty.set (.str "x")
        ⟨1, .str "x", .transient, some "a", .const .null⟩).get (.str "x")
      (some "a")
      = some ⟨1, .str "x", .transient, some "a", .const .null⟩ := by
  have h := tagged_lookup_most_recent Registry.empty (.str "x") "a"
    ⟨1, .str "x", .transient, some "a", .const .null⟩ (by decide)
  have h1 := h.1
  simpa using h1

/-- A root scope with an untagged registration (value `5`) for the string
key `svc`, plus a freshly created child scope (id 1) with no local
registration. -/
def rootOnlyW : World :=
  (((⟨[], [], 0, 0⟩ : World).newRoot).register 0
      ⟨1, .str "svc", .transient, none, .const (.num 5)⟩).createScope 0

/-- The `rootOnlyW` with an additional child-local registration (value `6`) for
the same key, shadowing the root's. -/
def nearestW : World :=
  rootOnlyW.register 1 ⟨2, .str "svc", .transient, none, .const (.num 6)⟩

/-- C5: resolution walks the scope chain from the originating scope through
successive parents — a scope with a matching registration answers
immediately (nearest match wins), a scope without one defers to its parent,
and the walk ends when the chain is exhausted; consequently a key
registered only on the root resolves successfully (to `5`) from a fresh
child scope, and a child-local registration (`6`) shadows the root's. -/
theorem scope_chain_walk
    (w : World) (o : Nat) (lookup : LookupKey) (tag : Option String)
    (fuel : Nat) (sd : ScopeData) (hsd : w.scopes[o]? = some sd) :
    (∀ reg, sd.registry.get lookup tag = some reg →
      findRegistration (fuel + 1) w o lookup tag = some (o, reg))
    ∧ (sd.registry.get lookup tag = none →
      findRegistration (fuel + 1) w o lookup tag =
        (match sd.parent with
          | none => none
          | some pid => findRegistration fuel w pid lookup tag))
    ∧ ((resolveF 2 1 (.str "svc") none rootOnlyW).2 = .ok (.num 5))
    ∧ ((resolveF 2 1 (.str "svc") none nearestW).2 = .ok (.num 6)) := by
  refine ⟨?_, ?_, by decide, by decide⟩
  · intro reg hreg
    simp only [findRegistration, hsd, hreg]
  · intro hnone
    simp only [findRegistration, hsd, hnone]

/-- Witness for `scope_chain_walk` at a concrete world. -/
theorem scope_chain_walk_witness :
    findRegistration 1 emptyTagW 0 (.str "k") none
      = some (0, ⟨1, .str "k", .transient, none, .const (.num 7)⟩) := by
  have h := scope_chain_walk emptyTagW 0 (.str "k") none 0
    ⟨emptyTagRegistry, [], none, 0⟩ (by decide)
  exact h.1 ⟨1, .str "k", .transient, none, .const (.num 7)⟩ (by decide)

/-- C6: when no registration is found on the scope chain, no tag was
supplied, and the lookup identity is a constructible type token, resolve
treats the token as an implicit class-constructor provider and constructs a
value from it directly (here: a fresh instance for an arity-0 constructor)
while leaving every scope — in particular every registry — untouched; when
a tag was supplied, or the identity is a string/symbol, the fallback does
not apply and resolve fails with NotFound. -/
theorem autowire_fallback
    (w : World) (o : Nat) (key : ResolveKey) (tag : Option String)
    (fuel : Nat) :
    (∀ (resolver : ResolverFn) (c : Nat), getLookupKey key = .cls c →
      tag = none →
      findRegistration w.scopes.length w o (.cls c) none = none →
      resolveInnerWith resolver w o key none
        = classResolveWith resolver w.classes c key none w)
    ∧ (ShapeEq ((resolveF (fuel + 1) o key tag w).1) w)
    ∧ (∀ c ci, getLookupKey key = .cls c → tag = none →
      findRegistration w.scopes.length w o (.cls c) none = none →
      w.classes[c]? = some ci → ci.arity = 0 →
      resolveF (fuel + 1) o key none w
        = ({ w with nextObj := w.nextObj + 1 }, .ok (.obj w.nextObj)))
    ∧ (tag ≠ none →
      findRegistration w.scopes.length w o (getLookupKey key) tag = none →
      (resolveF (fuel + 1) o key tag w).2 = .error (.notFound key tag))
    ∧ (isConstructor (getLookupKey key) = false →
      findRegistration w.scopes.length w o (getLookupKey key) tag = none →
      (resolveF (fuel + 1) o key tag w).2 = .error (.notFound key tag)) := by
  refine ⟨?_, resolveF_shape (fuel + 1) o key tag w, ?_, ?_, ?_⟩
  · intro resolver c hkey htag hfind
    unfold resolveInnerWith
    rw [hkey]
    simp only [hfind]
  · intro c ci hkey htag hfind hci h0
    subst htag
    have hin : ∀ resolver : ResolverFn, resolveInnerWith resolver w o key none
        = ({ w with nextObj := w.nextObj + 1 }, .ok (.obj w.nextObj)) := by
      intro resolver
      unfold resolveInnerWith
      rw [hkey]
      simp only [hfind]
      unfold classResolveWith
      simp only [hci, h0, if_true]
    simp only [resolveF, hin]
    simp
  · intro htag hfind
    cases tag with
    | none => exact absurd rfl htag
    | some t =>
      have hin : ∀ resolver : ResolverFn,
          resolveInnerWith resolver w o key (some t) = (w, .ok .undef) := by
        intro resolver
        unfold resolveInnerWith
        simp only [hfind]
      simp [resolveF, hin]
  · intro hcons hfind
    have hin : ∀ resolver : ResolverFn,
        resolveInnerWith resolver w o key tag = (w, .ok .undef) := by
      intro resolver
      unfold resolveInnerWith
      simp only [hfind]
      cases tag with
      | some t => cases getLookupKey key <;> rfl
      | none =>
        cases hl : getLookupKey key with
        | cls c => rw [hl] at hcons; simp [isConstructor] at hcons
        | str n => rfl
        | sym i => rfl
    simp only [resolveF, hin]
    simp

/-- Witness for `autowire_fallback` at a concrete world: an unregistered
arity-0 class token auto-wires to a fresh instance, and an unregistered
symbol key fails with NotFound. -/
theorem autowire_fallback_witness :
    (resolveF 1 0 (.cls 0) none
        { scopes := [⟨Registry.empty, [], none, 0⟩],
          classes := [⟨"Bar", 0, [], []⟩], nextObj := 0, counter := 0 }
      = ({ scopes := [⟨Registry.empty, [], none, 0⟩],
            classes := [⟨"Bar", 0, [], []⟩], nextObj := 1, counter := 0 },
          .ok (.obj 0)))
    ∧ ((resolveF 1 0 (.sym 3) none
        { scopes := [⟨Registry.empty, [], none, 0⟩],
          classes := [⟨"Bar", 0, [], []⟩], nextObj := 0, counter := 0 }).2
      = .error (.notFound (.sym 3) none)) := by
  constructor
  · exact (autowire_fallback
      { scopes := [⟨Registry.empty, [], none, 0⟩],
        classes := [⟨"Bar", 0, [], []⟩], nextObj := 0, counter := 0 }
      0 (.cls 0) none 0).2.2.1 0 ⟨"Bar", 0, [], []⟩ rfl rfl (by decide)
      (by decide) rfl
  · exact (autowire_fallback
      { scopes := [⟨Registry.empty, [], none, 0⟩],
        classes := [⟨"Bar", 0, [], []⟩], nextObj := 0, counter := 0 }
      0 (.sym 3) none 0).2.2.2.2 rfl (by decide)

theorem resolveParams_error_inject (resolver : ResolverFn) (ci : ClassInfo)
    (c : Nat) (key : ResolveKey) (tag : Option String) :
    ∀ idxs w w' e,
      resolveParams resolver ci c key tag idxs w = (w', .error e) →
      ∃ i pn pt cause, e = .injectFail c key tag i pn pt cause := by
  intro idxs
  induction idxs with
  | nil =>
    intro w w' e h
    exact absurd (congrArg Prod.snd h) (by simp [resolveParams])
  | cons i rest ih =>
    intro w w' e h
    simp only [resolveParams] at h
    split at h
    · rename_i wa e1 ha
      have h2 := congrArg Prod.snd h
      simp only [] at h2
      injection h2 with h3
      exact ⟨i, getParamterName ci i,
        (assocGet ci.params i).bind ParameterResolveInfo.key, e1, h3.symm⟩
    · rename_i wa v ha
      split at h
      · rename_i w2 vs hrec
        exact absurd (congrArg Prod.snd h) (by simp)
      · rename_i w2 e2 hrec
        have h2 := congrArg Prod.snd h
        simp only [] at h2
        injection h2 with h3
        obtain ⟨i2, pn, pt, cause, he⟩ := ih wa w2 e2 hrec
        exact ⟨i2, pn, pt, cause, h3 ▸ he⟩

theorem classResolveWith_no_notFound (resolver : ResolverFn)
    (classes : List ClassInfo) (c : Nat) (key : ResolveKey)
    (tag : Option String) (w w' : World) (e : RError)
    (h : classResolveWith resolver classes c key tag w = (w', .error e)) :
    ∀ k2 t2, e ≠ .notFound k2 t2 := by
  intro k2 t2
  unfold classResolveWith at h
  split at h
  · have h2 := congrArg Prod.snd h
    simp only [] at h2
    injection h2 with h3
    rw [← h3]
    simp
  · rename_i ci hci
    split at h
    · exact absurd (congrArg Prod.snd h) (by simp)
    · split at h
      · have h2 := congrArg Prod.snd h
        simp only [] at h2
        injection h2 with h3
        rw [← h3]
        simp
      · split at h
        · rename_i wp ep hp
          have h2 := congrArg Prod.snd h
          simp only [] at h2
          injection h2 with h3
          obtain ⟨i, pn, pt, cause, he⟩ :=
            resolveParams_error_inject resolver ci c key tag
              (List.range ci.params.length) w wp ep hp
          rw [← h3, he]
          simp
        · exact absurd (congrArg Prod.snd h) (by simp)

theorem runProvider_no_notFound (resolver : ResolverFn)
    (classes : List ClassInfo) (prov : Provider) (key : ResolveKey)
    (tag : Option String) (w w' : World) (e : RError)
    (h : runProvider resolver classes prov key tag w = (w', .error e)) :
    ∀ k2 t2, e ≠ .notFound k2 t2 := by
  unfold runProvider at h
  cases prov with
  | const v => exact absurd (congrArg Prod.snd h) (by simp)
  | fresh => exact absurd (congrArg Prod.snd h) (by simp)
  | countUp => exact absurd (congrArg Prod.snd h) (by simp)
  | classProvider c =>
    exact classResolveWith_no_notFound resolver classes c key tag w w' e h

theorem resolveInnerWith_no_notFound (resolver : ResolverFn) (w : World)
    (o : Nat) (key : ResolveKey) (tag : Option String) (w' : World)
    (e : RError)
    (h : resolveInnerWith resolver w o key tag = (w', .error e)) :
    ∀ k2 t2, e ≠ .notFound k2 t2 := by
  unfold resolveInnerWith at h
  split at h
  · split at h
    · rename_i c htag hlook
      exact classResolveWith_no_notFound resolver w.classes c key _ w w' e h
    · exact absurd (congrArg Prod.snd h) (by simp)
  · rename_i sid reg hfind
    split at h
    · split at h
      · exact absurd (congrArg Prod.snd h) (by simp)
      · split at h
        · rename_i wp ep hp
          have h2 := congrArg Prod.snd h
          simp only [] at h2
          injection h2 with h3
          rw [← h3]
          exact runProvider_no_notFound resolver w.classes reg.provider
            key tag w wp ep hp
        · exact absurd (congrArg Prod.snd h) (by simp)
    · exact runProvider_no_notFound resolver w.classes reg.provider
        key tag w w' e h
    · split at h
      · exact absurd (congrArg Prod.snd h) (by simp)
      · split at h
        · rename_i wp ep hp
          have h2 := congrArg Prod.snd h
          simp only [] at h2
          injection h2 with h3
          rw [← h3]
          exact runProvider_no_notFound resolver w.classes reg.provider
            key tag w wp ep hp
        · exact absurd (congrArg Prod.snd h) (by simp)

/-- A root scope with an untagged transient registration for the string key
`u` whose provider returns `undefined`. -/
def undefProvW : World :=
  ((⟨[], [], 0, 0⟩ : World).newRoot).register 0
    ⟨1, .str "u", .transient, none, .const .undef⟩

/-- C7 counterexample: a registration for the string key `u` exists on the
chain (its provider returns `undefined`), yet resolve raises the
NotFound-kind ResolveError — so "when a registration exists, resolve
returns a value instead of raising NotFound" is false. -/
theorem notFound_despite_registration_cex :
    (findRegistration 1 undefProvW 0 (.str "u") none
      = some (0, ⟨1, .str "u", .transient, none, .const .undef⟩))
    ∧ ((resolveF 2 0 (.str "u") none undefProvW).2
      = .error (.notFound (.str "u") none)) := by
  exact ⟨by decide, by decide⟩

/-- C7 amended: resolve raises the NotFound-kind ResolveError carrying the
requested key and tag exactly when the inner resolution produced the
undefined value; this holds in particular whenever no scope on the chain
has a matching registration and the auto-wiring fallback does not apply,
but it also fires when a found registration's provider produces undefined,
so the existence of a registration does not by itself guarantee that a
value is returned. -/
theorem notFound_iff_inner_undefined
    (fuel o : Nat) (key : ResolveKey) (tag : Option String) (w : World) :
    ((resolveF (fuel + 1) o key tag w).2 = .error (.notFound key tag) ↔
      (resolveInnerWith (fun k2 t2 w2 => resolveF fuel o k2 t2 w2)
          w o key tag).2 = .ok .undef)
    ∧ (findRegistration w.scopes.length w o (getLookupKey key) tag = none →
      ¬(tag = none ∧ isConstructor (getLookupKey key) = true) →
      (resolveF (fuel + 1) o key tag w).2 = .error (.notFound key tag)) := by
  constructor
  · constructor
    · intro h
      simp only [resolveF] at h
      split at h
      · rename_i w' e hin
        simp only [] at h
        injection h with h2
        exact absurd rfl (h2 ▸ resolveInnerWith_no_notFound _ w o key tag
          w' e hin key tag)
      · rename_i w' v hin
        split at h
        · rename_i hv
          rw [hin, hv]
        · exact absurd (congrArg id h) (by simp)
    · intro h
      simp only [resolveF]
      split
      · rename_i w' e hin
        rw [hin] at h
        exact absurd h (by simp)
      · rename_i w' v hin
        rw [hin] at h
        simp only [] at h
        injection h with h2
        rw [h2]
        simp
  · intro hfind hnf
    have hin : ∀ resolver : ResolverFn,
        resolveInnerWith resolver w o key tag = (w, .ok .undef) := by
      intro resolver
      unfold resolveInnerWith
      simp only [hfind]
      cases tag with
      | some t => rfl
      | none =>
        cases hl : getLookupKey key with
        | cls c =>
          exact absurd ⟨rfl, by rw [hl]; rfl⟩ hnf
        | str n => rfl
        | sym i => rfl
    simp [resolveF, hin]

/-- Witness for `notFound_iff_inner_undefined`: an unregistered symbol key
resolves to the NotFound error on a fresh root scope. -/
theorem notFound_iff_inner_undefined_witness :
    (resolveF 1 0 (.sym 9) none ((⟨[], [], 0, 0⟩ : World).newRoot)).2
      = .error (.notFound (.sym 9) none) :=
  (notFound_iff_inner_undefined 0 0 (.sym 9) none
    ((⟨[], [], 0, 0⟩ : World).newRoot)).2 (by decide) (by decide)

theorem findRegistration_origin_lt :
    ∀ (fuel : Nat) (w : World) (o : Nat) (l : LookupKey) (t : Option String)
      (pr : Nat × Registration),
      findRegistration fuel w o l t = some pr → o < w.scopes.length := by
  intro fuel w o l t pr h
  cases fuel with
  | zero => exact absurd h (by simp [findRegistration])
  | succ fuel =>
    by_contra hlt
    have hnone : w.scopes[o]? = none :=
      List.getElem?_eq_none (Nat.le_of_not_lt hlt)
    simp [findRegistration, hnone] at h

/-- C10 (implicit): for every registration whose provider produces the
undefined value — whatever its lifetime — resolve raises exactly the same
NotFound-kind ResolveError, carrying the requested key and tag, that it
raises for an unregistered key, even though the registration was found and
its provider executed (for a scope-lifetime registration the execution is
visible: the cache slot of the originating scope gets an entry holding
`undefined`). -/
theorem undefined_provider_raises_notFound
    (w : World) (o : Nat) (key : ResolveKey) (tag : Option String)
    (fuel sid : Nat) (reg : Registration)
    (hfind : findRegistration w.scopes.length w o (getLookupKey key) tag
      = some (sid, reg))
    (hprov : reg.provider = .const .undef)
    (hmiss1 : (w.scopeValue (w.rootOf o) (getLookupKey key) tag).truthy
      = false)
    (hmiss2 : (w.scopeValue o (getLookupKey key) tag).truthy = false) :
    ((resolveF (fuel + 1) o key tag w).2 = .error (.notFound key tag))
    ∧ (reg.lifetime = .scope →
      (resolveF (fuel + 1) o key tag w).1.hasCacheEntry o
        (getLookupKey key) tag = true) := by
  have ho : o < w.scopes.length :=
    findRegistration_origin_lt w.scopes.length w o (getLookupKey key) tag
      (sid, reg) hfind
  cases hl : reg.lifetime with
  | single =>
    have hin : resolveInnerWith (fun k2 t2 w2 => resolveF fuel o k2 t2 w2)
        w o key tag
        = (w.cacheSet (w.rootOf o) (getLookupKey key) tag .undef,
          .ok .undef) := by
      unfold resolveInnerWith
      simp only [hfind, hl, hmiss1]
      rw [if_neg (by simp)]
      unfold runProvider
      simp only [hprov]
    constructor
    · simp [resolveF, hin]
    · intro hsc
      exact absurd hsc (by simp)
  | transient =>
    have hin : resolveInnerWith (fun k2 t2 w2 => resolveF fuel o k2 t2 w2)
        w o key tag = (w, .ok .undef) := by
      unfold resolveInnerWith
      simp only [hfind, hl]
      unfold runProvider
      simp only [hprov]
    constructor
    · simp [resolveF, hin]
    · intro hsc
      exact absurd hsc (by simp)
  | scope =>
    have hin : resolveInnerWith (fun k2 t2 w2 => resolveF fuel o k2 t2 w2)
        w o key tag
        = (w.cacheSet o (getLookupKey key) tag .undef, .ok .undef) := by
      unfold resolveInnerWith
      simp only [hfind, hl, hmiss2]
      rw [if_neg (by simp)]
      unfold runProvider
      simp only [hprov]
    constructor
    · simp [resolveF, hin]
    · intro hsc
      have hworld : (resolveF (fuel + 1) o key tag w).1
          = w.cacheSet o (getLookupKey key) tag .undef := by
        simp [resolveF, hin]
      rw [hworld]
      exact hasCacheEntry_cacheSet_same w o (getLookupKey key) tag .undef ho

/-- Witness for `undefined_provider_raises_notFound` at a concrete world
with a scope-lifetime undefined-returning provider. -/
theorem undefined_provider_raises_notFound_witness :
    ((resolveF 1 0 (.str "u") none
        (((⟨[], [], 0, 0⟩ : World).newRoot).register 0
          ⟨1, .str "u", .scope, none, .const .undef⟩)).2
      = .error (.notFound (.str "u") none))
    ∧ ((resolveF 1 0 (.str "u") none
        (((⟨[], [], 0, 0⟩ : World).newRoot).register 0
          ⟨1, .str "u", .scope, none, .const .undef⟩)).1.hasCacheEntry 0
        (.str "u") none = true) := by
  have h := undefined_provider_raises_notFound
    (((⟨[], [], 0, 0⟩ : World).newRoot).register 0
      ⟨1, .str "u", .scope, none, .const .undef⟩)
    0 (.str "u") none 0 0 ⟨1, .str "u", .scope, none, .const .undef⟩
    (by decide) rfl (by decide) (by decide)
  exact ⟨h.1, h.2 rfl⟩

/-- C1: for a Single-lifetime resolution the cache consulted and written is
always the root scope's cache — whichever scope the resolve started at and
whichever scope holds the registration: after a resolve from `o1` returns a
truthy value `v1`, the root's cache holds `v1` at the lookup key, and a
subsequent resolve of the same (key, tag) from any scope `o2` with the same
root (the root itself, a child, a grandchild, …) that finds a
Single-lifetime registration returns the identical cached value `v1` and
leaves the world unchanged. -/
theorem single_lifetime_root_cache
    (w : World) (o1 : Nat) (key : ResolveKey) (tag : Option String)
    (fuel1 sid1 : Nat) (reg1 : Registration) (w1 : World) (v1 : JsValue)
    (hfind1 : findRegistration w.scopes.length w o1 (getLookupKey key) tag
      = some (sid1, reg1))
    (hlife1 : reg1.lifetime = .single)
    (hroot : w.rootOf o1 < w.scopes.length)
    (hres1 : resolveF (fuel1 + 1) o1 key tag w = (w1, .ok v1))
    (htruthy : v1.truthy = true) :
    (w1.scopeValue (w.rootOf o1) (getLookupKey key) tag = v1)
    ∧ (∀ (o2 fuel2 sid2 : Nat) (reg2 : Registration),
        w.rootOf o2 = w.rootOf o1 →
        findRegistration w.scopes.length w o2 (getLookupKey key) tag
          = some (sid2, reg2) →
        reg2.lifetime = .single →
        resolveF (fuel2 + 1) o2 key tag w1 = (w1, .ok v1)) := by
  have hne : v1 ≠ JsValue.undef := by
    intro hv
    rw [hv] at htruthy
    simp [JsValue.truthy] at htruthy
  have hshape1 : ShapeEq w1 w := by
    have h1 := congrArg Prod.fst hres1
    have h2 := resolveF_shape (fuel1 + 1) o1 key tag w
    rw [h1] at h2
    exact h2
  have hres := hres1
  simp only [resolveF] at hres
  have hcache : w1.scopeValue (w.rootOf o1) (getLookupKey key) tag = v1 := by
    split at hres
    · exact absurd (congrArg Prod.snd hres) (by simp)
    · rename_i w' v hin
      split at hres
      · exact absurd (congrArg Prod.snd hres) (by simp)
      · rename_i hv
        rw [Prod.mk.injEq] at hres
        obtain ⟨hw', hv'⟩ := hres
        injection hv' with hv2
        subst hw'
        subst hv2
        unfold resolveInnerWith at hin
        simp only [hfind1, hlife1] at hin
        by_cases hc :
            (w.scopeValue (w.rootOf o1) (getLookupKey key) tag).truthy = true
        · rw [if_pos hc] at hin
          rw [Prod.mk.injEq] at hin
          obtain ⟨hw1, hv1⟩ := hin
          injection hv1 with hv3
          rw [← hw1, hv3]
        · rw [if_neg hc] at hin
          split at hin
          · exact absurd (congrArg Prod.snd hin) (by simp)
          · rename_i wp vp hp
            rw [Prod.mk.injEq] at hin
            obtain ⟨hw1, hv1⟩ := hin
            injection hv1 with hv3
            have hshapep : ShapeEq wp w := by
              have hs := runProvider_shape
                (fun k2 t2 w2 => resolveF fuel1 o1 k2 t2 w2)
                (fun k2 t2 w2 => resolveF_shape fuel1 o1 k2 t2 w2)
                w.classes reg1.provider key tag w
              rw [hp] at hs
              exact hs
            have hlt : w.rootOf o1 < wp.scopes.length := by
              rw [hshapep.length]
              exact hroot
            rw [← hw1, hv3]
            exact scopeValue_cacheSet_same wp (w.rootOf o1)
              (getLookupKey key) tag _ hlt
  refine ⟨hcache, ?_⟩
  intro o2 fuel2 sid2 reg2 hr2 hfind2 hlife2
  have hfind2' : findRegistration w1.scopes.length w1 o2
      (getLookupKey key) tag = some (sid2, reg2) := by
    rw [hshape1.length]
    rw [findRegistration_shapeEq hshape1 w.scopes.length o2
      (getLookupKey key) tag]
    exact hfind2
  have hroot2 : w1.rootOf o2 = w.rootOf o1 :=
    (rootOf_shapeEq hshape1 o2).trans hr2
  have hin2 : resolveInnerWith (fun k2 t2 w2 => resolveF fuel2 o2 k2 t2 w2)
      w1 o2 key tag = (w1, .ok v1) := by
    unfold resolveInnerWith
    simp only [hfind2', hlife2, hroot2, hcache, htruthy, if_true]
  simp only [resolveF, hin2]
  rw [if_neg hne]

/-- Witness for `single_lifetime_root_cache`: a three-level scope tree
(root 0, child 1, grandchild 2) with a Single-lifetime fresh-object
registration on the root; resolving from the grandchild caches `obj 0` at
the root and resolving again from the child returns the identical object
without further changes. -/
theorem single_lifetime_root_cache_witness :
    ((resolveF 1 2 (.sym 0) none
        ((((⟨[], [], 0, 0⟩ : World).newRoot).register 0
            ⟨1, .sym 0, .single, none, .fresh⟩).createScope 0 |>.createScope
          1)).1.scopeValue 0 (.sym 0) none = .obj 0)
    ∧ (resolveF 1 1 (.sym 0) none
        (resolveF 1 2 (.sym 0) none
          ((((⟨[], [], 0, 0⟩ : World).newRoot).register 0
              ⟨1, .sym 0, .single, none, .fresh⟩).createScope 0
            |>.createScope 1)).1
      = ((resolveF 1 2 (.sym 0) none
          ((((⟨[], [], 0, 0⟩ : World).newRoot).register 0
              ⟨1, .sym 0, .single, none, .fresh⟩).createScope 0
            |>.createScope 1)).1, .ok (.obj 0))) := by
  have h := single_lifetime_root_cache
    ((((⟨[], [], 0, 0⟩ : World).newRoot).register 0
        ⟨1, .sym 0, .single, none, .fresh⟩).createScope 0 |>.createScope 1)
    2 (.sym 0) none 0 0 ⟨1, .sym 0, .single, none, .fresh⟩
    (resolveF 1 2 (.sym 0) none
      ((((⟨[], [], 0, 0⟩ : World).newRoot).register 0
          ⟨1, .sym 0, .single, none, .fresh⟩).createScope 0
        |>.createScope 1)).1
    (.obj 0) (by decide) rfl (by decide) (by decide) rfl
  exact ⟨h.1, h.2 1 0 0 ⟨1, .sym 0, .single, none, .fresh⟩ (by decide)
    (by decide) rfl⟩

theorem cacheSet_nextObj (w : World) (sid : Nat) (k : LookupKey)
    (tag : Option String) (v : JsValue) :
    (w.cacheSet sid k tag v).nextObj = w.nextObj := by
  unfold World.cacheSet
  cases w.scopes[sid]? <;> rfl

/-- C2: for a Scope-lifetime registration with a fresh-object provider,
resolve reads and writes the cache of the originating scope: the first
resolve from scope `o` returns a fresh object and stores it in `o`'s cache
(every other scope's cache — in particular the cache of the scope holding
the registration, when different — is untouched); a second resolve from the
same scope `o` returns the identical cached object and leaves the world
unchanged; and a resolve from a different scope `o2` (e.g. a child) with
its own cache miss returns a distinct fresh object. -/
theorem scope_lifetime_originating_cache
    (w : World) (o : Nat) (key : ResolveKey) (tag : Option String)
    (fuel1 sid1 : Nat) (reg1 : Registration)
    (hfind1 : findRegistration w.scopes.length w o (getLookupKey key) tag
      = some (sid1, reg1))
    (hlife1 : reg1.lifetime = .scope)
    (hprov1 : reg1.provider = .fresh)
    (hmiss : (w.scopeValue o (getLookupKey key) tag).truthy = false) :
    (resolveF (fuel1 + 1) o key tag w
      = (({ w with nextObj := w.nextObj + 1 }).cacheSet o (getLookupKey key)
          tag (.obj w.nextObj), .ok (.obj w.nextObj)))
    ∧ ((resolveF (fuel1 + 1) o key tag w).1.scopeValue o (getLookupKey key)
        tag = .obj w.nextObj)
    ∧ (∀ s, s ≠ o →
        (resolveF (fuel1 + 1) o key tag w).1.scopeValue s (getLookupKey key)
          tag = w.scopeValue s (getLookupKey key) tag)
    ∧ (∀ fuel2 : Nat,
        resolveF (fuel2 + 1) o key tag (resolveF (fuel1 + 1) o key tag w).1
          = ((resolveF (fuel1 + 1) o key tag w).1, .ok (.obj w.nextObj)))
    ∧ (∀ (o2 fuel2 sid2 : Nat) (reg2 : Registration),
        o2 ≠ o →
        findRegistration w.scopes.length w o2 (getLookupKey key) tag
          = some (sid2, reg2) →
        reg2.lifetime = .scope → reg2.provider = .fresh →
        (w.scopeValue o2 (getLookupKey key) tag).truthy = false →
        ((resolveF (fuel2 + 1) o2 key tag
            (resolveF (fuel1 + 1) o key tag w).1).2
          = .ok (.obj (w.nextObj + 1)))
        ∧ (JsValue.obj (w.nextObj + 1) ≠ .obj w.nextObj)) := by
  have ho : o < w.scopes.length :=
    findRegistration_origin_lt w.scopes.length w o (getLookupKey key) tag
      (sid1, reg1) hfind1
  have hA : resolveF (fuel1 + 1) o key tag w
      = (({ w with nextObj := w.nextObj + 1 }).cacheSet o (getLookupKey key)
          tag (.obj w.nextObj), .ok (.obj w.nextObj)) := by
    have hin : resolveInnerWith (fun k2 t2 w2 => resolveF fuel1 o k2 t2 w2)
        w o key tag
        = (({ w with nextObj := w.nextObj + 1 }).cacheSet o (getLookupKey key)
            tag (.obj w.nextObj), .ok (.obj w.nextObj)) := by
      unfold resolveInnerWith
      simp only [hfind1, hlife1, hmiss]
      rw [if_neg (by simp)]
      unfold runProvider
      simp only [hprov1]
    simp [resolveF, hin]
  set W1 := (resolveF (fuel1 + 1) o key tag w).1 with hW1
  have hlen1 : ({ w with nextObj := w.nextObj + 1 } : World).scopes.length
      = w.scopes.length := rfl
  have hB : W1.scopeValue o (getLookupKey key) tag = .obj w.nextObj := by
    rw [hW1, hA]
    exact scopeValue_cacheSet_same { w with nextObj := w.nextObj + 1 } o
      (getLookupKey key) tag (.obj w.nextObj) (by rw [hlen1]; exact ho)
  have hC : ∀ s, s ≠ o →
      W1.scopeValue s (getLookupKey key) tag
        = w.scopeValue s (getLookupKey key) tag := by
    intro s hs
    rw [hW1, hA]
    rw [scopeValue_cacheSet_other { w with nextObj := w.nextObj + 1 } o s
      (getLookupKey key) (getLookupKey key) tag tag (.obj w.nextObj) hs]
    rfl
  have hshape1 : ShapeEq W1 w := resolveF_shape (fuel1 + 1) o key tag w
  have hD : ∀ fuel2 : Nat,
      resolveF (fuel2 + 1) o key tag W1 = (W1, .ok (.obj w.nextObj)) := by
    intro fuel2
    have hfindW1 : findRegistration W1.scopes.length W1 o (getLookupKey key)
        tag = some (sid1, reg1) := by
      rw [hshape1.length,
        findRegistration_shapeEq hshape1 w.scopes.length o (getLookupKey key)
          tag]
      exact hfind1
    have hin2 : resolveInnerWith (fun k2 t2 w2 => resolveF fuel2 o k2 t2 w2)
        W1 o key tag = (W1, .ok (.obj w.nextObj)) := by
      unfold resolveInnerWith
      simp only [hfindW1, hlife1, hB]
      rw [if_pos (by simp [JsValue.truthy])]
    simp only [resolveF, hin2]
    rw [if_neg (by simp)]
  refine ⟨hA, hB, hC, hD, ?_⟩
  intro o2 fuel2 sid2 reg2 ho2 hfind2 hlife2 hprov2 hmiss2
  have hfindW2 : findRegistration W1.scopes.length W1 o2 (getLookupKey key)
      tag = some (sid2, reg2) := by
    rw [hshape1.length,
      findRegistration_shapeEq hshape1 w.scopes.length o2 (getLookupKey key)
        tag]
    exact hfind2
  have hmissW2 : (W1.scopeValue o2 (getLookupKey key) tag).truthy = false := by
    rw [hC o2 ho2]
    exact hmiss2
  have hnext : W1.nextObj = w.nextObj + 1 := by
    rw [hW1, hA]
    rw [cacheSet_nextObj]
  have hin3 : resolveInnerWith (fun k2 t2 w2 => resolveF fuel2 o2 k2 t2 w2)
      W1 o2 key tag
      = (({ W1 with nextObj := W1.nextObj + 1 }).cacheSet o2
          (getLookupKey key) tag (.obj W1.nextObj), .ok (.obj W1.nextObj)) := by
    unfold resolveInnerWith
    simp only [hfindW2, hlife2, hmissW2]
    rw [if_neg (by simp)]
    unfold runProvider
    simp only [hprov2]
  constructor
  · simp only [resolveF, hin3]
    rw [if_neg (by simp)]
    rw [hnext]
  · simp

/-- Witness for `scope_lifetime_originating_cache`: a root scope 0 with a
Scope-lifetime fresh-object registration and a child scope 1; the
registration lives on the root but resolving from the child caches the
object in the child's cache. -/
theorem scope_lifetime_originating_cache_witness :
    (resolveF 1 1 (.sym 1) none
        ((((⟨[], [], 0, 0⟩ : World).newRoot).register 0
            ⟨1, .sym 1, .scope, none, .fresh⟩).createScope 0)
      = ((({ ((((⟨[], [], 0, 0⟩ : World).newRoot).register 0
              ⟨1, .sym 1, .scope, none, .fresh⟩).createScope 0) with
            nextObj := 1 }).cacheSet 1 (.sym 1) none (.obj 0)),
        .ok (.obj 0)))
    ∧ ((resolveF 1 0 (.sym 1) none
        (resolveF 1 1 (.sym 1) none
          ((((⟨[], [], 0, 0⟩ : World).newRoot).register 0
              ⟨1, .sym 1, .scope, none, .fresh⟩).createScope 0)).1).2
      = .ok (.obj 1)) := by
  have h := scope_lifetime_originating_cache
    ((((⟨[], [], 0, 0⟩ : World).newRoot).register 0
        ⟨1, .sym 1, .scope, none, .fresh⟩).createScope 0)
    1 (.sym 1) none 0 0 ⟨1, .sym 1, .scope, none, .fresh⟩
    (by decide) rfl rfl (by decide)
  refine ⟨h.1, ?_⟩
  exact (h.2.2.2.2 0 0 0 ⟨1, .sym 1, .scope, none, .fresh⟩ (by decide)
    (by decide) rfl rfl (by decide)).1

theorem cacheSet_counter (w : World) (sid : Nat) (k : LookupKey)
    (tag : Option String) (v : JsValue) :
    (w.cacheSet sid k tag v).counter = w.counter := by
  unfold World.cacheSet
  cases w.scopes[sid]? <;> rfl

/-- A root scope with a Scope-lifetime registration for the string key `f`
whose provider returns the falsy number `0`. -/
def falsyW : World :=
  ((⟨[], [], 0, 0⟩ : World).newRoot).register 0
    ⟨1, .str "f", .scope, none, .const (.num 0)⟩

/-- C9 counterexample: for a Scope-lifetime registration producing the
falsy value `0`, the cache write is NOT skipped — after the resolve the
originating scope's cache holds an entry mapping the key to `0` (the claim
says the write is skipped; only the cache *check* treats the stored falsy
value as absent). -/
theorem falsy_cache_write_not_skipped_cex :
    ((resolveF 1 0 (.str "f") none falsyW).2 = .ok (.num 0))
    ∧ ((resolveF 1 0 (.str "f") none falsyW).1.hasCacheEntry 0 (.str "f")
        none = true)
    ∧ ((resolveF 1 0 (.str "f") none falsyW).1.scopeValue 0 (.str "f") none
      = .num 0) := by
  exact ⟨by decide, by decide, by decide⟩

/-- C9 amended: for a Scope- or Single-lifetime registration whose provider
produces a falsy value, the value IS written to the consulted cache (the
originating scope's for Scope, the root's for Single), but the cache check
treats the stored falsy value as indistinguishable from "not yet cached",
so every subsequent resolve of the same (identity, tag) in that scope
re-invokes the provider (observable with a counting provider: the second
resolve returns a different value); a cache entry holding a truthy value is
never overwritten — a resolve that hits it returns the cached value and
leaves the world unchanged. -/
theorem falsy_cache_check_recomputes
    (w : World) (o : Nat) (key : ResolveKey) (tag : Option String)
    (fuel sid : Nat) (reg : Registration)
    (hfind : findRegistration w.scopes.length w o (getLookupKey key) tag
      = some (sid, reg)) :
    (reg.lifetime = .scope → ∀ v : JsValue, reg.provider = .const v →
      (w.scopeValue o (getLookupKey key) tag).truthy = false →
      ((resolveF (fuel + 1) o key tag w).1
        = w.cacheSet o (getLookupKey key) tag v)
      ∧ ((resolveF (fuel + 1) o key tag w).1.hasCacheEntry o
          (getLookupKey key) tag = true))
    ∧ (reg.lifetime = .scope → ∀ fuel2 : Nat, reg.provider = .countUp →
      w.counter = 0 →
      (w.scopeValue o (getLookupKey key) tag).truthy = false →
      ((resolveF (fuel + 1) o key tag w).2 = .ok (.num 0))
      ∧ ((resolveF (fuel2 + 1) o key tag
          (resolveF (fuel + 1) o key tag w).1).2 = .ok (.num 1)))
    ∧ (reg.lifetime = .scope →
      (w.scopeValue o (getLookupKey key) tag).truthy = true →
      resolveF (fuel + 1) o key tag w
        = (w, .ok (w.scopeValue o (getLookupKey key) tag)))
    ∧ (reg.lifetime = .single → w.rootOf o < w.scopes.length →
      ∀ v : JsValue, reg.provider = .const v →
      (w.scopeValue (w.rootOf o) (getLookupKey key) tag).truthy = false →
      ((resolveF (fuel + 1) o key tag w).1
        = w.cacheSet (w.rootOf o) (getLookupKey key) tag v)
      ∧ ((resolveF (fuel + 1) o key tag w).1.hasCacheEntry (w.rootOf o)
          (getLookupKey key) tag = true))
    ∧ (reg.lifetime = .single →
      (w.scopeValue (w.rootOf o) (getLookupKey key) tag).truthy = true →
      resolveF (fuel + 1) o key tag w
        = (w, .ok (w.scopeValue (w.rootOf o) (getLookupKey key) tag))) := by
  have ho : o < w.scopes.length :=
    findRegistration_origin_lt w.scopes.length w o (getLookupKey key) tag
      (sid, reg) hfind
  refine ⟨?_, ?_, ?_, ?_, ?_⟩
  · intro hlife v hprov hmiss
    have hin : resolveInnerWith (fun k2 t2 w2 => resolveF fuel o k2 t2 w2)
        w o key tag = (w.cacheSet o (getLookupKey key) tag v, .ok v) := by
      unfold resolveInnerWith
      simp only [hfind, hlife, hmiss]
      rw [if_neg (by simp)]
      unfold runProvider
      simp only [hprov]
    constructor
    · by_cases hv : v = JsValue.undef
      · simp [resolveF, hin, hv]
      · simp [resolveF, hin, hv]
    · have h1 : (resolveF (fuel + 1) o key tag w).1
          = w.cacheSet o (getLookupKey key) tag v := by
        by_cases hv : v = JsValue.undef
        · simp [resolveF, hin, hv]
        · simp [resolveF, hin, hv]
      rw [h1]
      exact hasCacheEntry_cacheSet_same w o (getLookupKey key) tag v ho
  · intro hlife fuel2 hprov hcounter hmiss
    have hin : resolveInnerWith (fun k2 t2 w2 => resolveF fuel o k2 t2 w2)
        w o key tag
        = (({ w with counter := w.counter + 1 }).cacheSet o (getLookupKey key)
            tag (.num w.counter), .ok (.num w.counter)) := by
      unfold resolveInnerWith
      simp only [hfind, hlife, hmiss]
      rw [if_neg (by simp)]
      unfold runProvider
      simp only [hprov]
    have hA : resolveF (fuel + 1) o key tag w
        = (({ w with counter := w.counter + 1 }).cacheSet o (getLookupKey key)
            tag (.num w.counter), .ok (.num w.counter)) := by
      simp [resolveF, hin]
    constructor
    · rw [hA, hcounter]
    · set W1 := (resolveF (fuel + 1) o key tag w).1 with hW1
      have hshape1 : ShapeEq W1 w := resolveF_shape (fuel + 1) o key tag w
      have hfindW1 : findRegistration W1.scopes.length W1 o (getLookupKey key)
          tag = some (sid, reg) := by
        rw [hshape1.length,
          findRegistration_shapeEq hshape1 w.scopes.length o (getLookupKey key)
            tag]
        exact hfind
      have hcacheW1 : W1.scopeValue o (getLookupKey key) tag
          = .num w.counter := by
        rw [hW1, hA]
        exact scopeValue_cacheSet_same { w with counter := w.counter + 1 } o
          (getLookupKey key) tag (.num w.counter) ho
      have hmissW1 : (W1.scopeValue o (getLookupKey key) tag).truthy
          = false := by
        rw [hcacheW1, hcounter]
        simp [JsValue.truthy]
      have hcounterW1 : W1.counter = 1 := by
        rw [hW1, hA]
        rw [cacheSet_counter]
        rw [hcounter]
        rfl
      have hin2 : resolveInnerWith (fun k2 t2 w2 => resolveF fuel2 o k2 t2 w2)
          W1 o key tag
          = (({ W1 with counter := W1.counter + 1 }).cacheSet o
              (getLookupKey key) tag (.num W1.counter),
            .ok (.num W1.counter)) := by
        unfold resolveInnerWith
        simp only [hfindW1, hlife, hmissW1]
        rw [if_neg (by simp)]
        unfold runProvider
        simp only [hprov]
      simp only [resolveF, hin2]
      rw [if_neg (by rw [hcounterW1]; simp)]
      rw [hcounterW1]
  · intro hlife hhit
    have hne : w.scopeValue o (getLookupKey key) tag ≠ JsValue.undef := by
      intro hv
      rw [hv] at hhit
      simp [JsValue.truthy] at hhit
    have hin : resolveInnerWith (fun k2 t2 w2 => resolveF fuel o k2 t2 w2)
        w o key tag = (w, .ok (w.scopeValue o (getLookupKey key) tag)) := by
      unfold resolveInnerWith
      simp only [hfind, hlife, hhit]
      simp
    simp only [resolveF, hin]
    rw [if_neg hne]
  · intro hlife hroot v hprov hmiss
    have hin : resolveInnerWith (fun k2 t2 w2 => resolveF fuel o k2 t2 w2)
        w o key tag
        = (w.cacheSet (w.rootOf o) (getLookupKey key) tag v, .ok v) := by
      unfold resolveInnerWith
      simp only [hfind, hlife, hmiss]
      rw [if_neg (by simp)]
      unfold runProvider
      simp only [hprov]
    constructor
    · by_cases hv : v = JsValue.undef
      · simp [resolveF, hin, hv]
      · simp [resolveF, hin, hv]
    · have h1 : (resolveF (fuel + 1) o key tag w).1
          = w.cacheSet (w.rootOf o) (getLookupKey key) tag v := by
        by_cases hv : v = JsValue.undef
        · simp [resolveF, hin, hv]
        · simp [resolveF, hin, hv]
      rw [h1]
      exact hasCacheEntry_cacheSet_same w (w.rootOf o) (getLookupKey key)
        tag v hroot
  · intro hlife hhit
    have hne : w.scopeValue (w.rootOf o) (getLookupKey key) tag
        ≠ JsValue.undef := by
      intro hv
      rw [hv] at hhit
      simp [JsValue.truthy] at hhit
    have hin : resolveInnerWith (fun k2 t2 w2 => resolveF fuel o k2 t2 w2)
        w o key tag
        = (w, .ok (w.scopeValue (w.rootOf o) (getLookupKey key) tag)) := by
      unfold resolveInnerWith
      simp only [hfind, hlife, hhit]
      simp
    simp only [resolveF, hin]
    rw [if_neg hne]

/-- Witness for `falsy_cache_check_recomputes` on a concrete world: the
falsy `0` gets written to the cache, and a counting provider shows the
re-invocation (`0` then `1`). -/
theorem falsy_cache_check_recomputes_witness :
    ((resolveF 1 0 (.str "f") none falsyW).1.hasCacheEntry 0 (.str "f")
      none = true)
    ∧ ((resolveF 1 0 (.str "c") none
        (((⟨[], [], 0, 0⟩ : World).newRoot).register 0
          ⟨1, .str "c", .scope, none, .countUp⟩)).2 = .ok (.num 0))
    ∧ ((resolveF 1 0 (.str "c") none
        (resolveF 1 0 (.str "c") none
          (((⟨[], [], 0, 0⟩ : World).newRoot).register 0
            ⟨1, .str "c", .scope, none, .countUp⟩)).1).2 = .ok (.num 1)) := by
  have h1 := falsy_cache_check_recomputes falsyW 0 (.str "f") none 0 0
    ⟨1, .str "f", .scope, none, .const (.num 0)⟩ (by decide)
  have h2 := falsy_cache_check_recomputes
    (((⟨[], [], 0, 0⟩ : World).newRoot).register 0
      ⟨1, .str "c", .scope, none, .countUp⟩)
    0 (.str "c") none 0 0 ⟨1, .str "c", .scope, none, .countUp⟩
    (by decide)
  refine ⟨(h1.1 rfl (.num 0) rfl (by decide)).2, ?_, ?_⟩
  · exact (h2.2.1 rfl 0 rfl rfl (by decide)).1
  · exact (h2.2.1 rfl 0 rfl rfl (by decide)).2

/-- A world with no registrations, an empty root scope, and two classes:
`Foo` (class id 0) whose single declared dependency slot is class `Bar`
(class id 1), and `Bar` whose single declared dependency slot is the
unregistered symbol key 9. -/
def twoLevelW : World :=
  { scopes := [⟨Registry.empty, [], none, 0⟩],
    classes := [⟨"Foo", 1, [(0, ⟨some (.cls 1), none⟩)], ["bar"]⟩,
                ⟨"Bar", 1, [(0, ⟨some (.sym 9), none⟩)], ["magic"]⟩],
    nextObj := 0, counter := 0 }

/-- C8: when resolving the dependency for constructor parameter slot `i`
fails, `ClassValueProvider.resolve` wraps the failure in a higher-level
ResolveError that carries the owning class, the parameter's declared name
(best-effort), its index, and its resolve key, with the underlying error
attached as the cause — never swallowed; the cause chain of a wrapped
error bottoms out at the original error, and in the concrete two-level
world resolving `Foo` (whose slot needs `Bar`, whose slot needs the
unregistered symbol 9) produces an error whose root cause is exactly the
NotFound for symbol 9. -/
theorem inject_failure_wrapped
    (resolver : ResolverFn) (ci : ClassInfo) (c : Nat) (key : ResolveKey)
    (tag : Option String) (i : Nat) (rest : List Nat) (w w' : World)
    (p : ParameterResolveInfo) (pk : ResolveKey) (e : RError)
    (hp : assocGet ci.params i = some p)
    (hk : p.key = some pk)
    (ht : pk.truthy = true)
    (hres : resolver pk p.tag w = (w', .error e)) :
    (resolveParams resolver ci c key tag (i :: rest) w
      = (w', .error (.injectFail c key tag i (getParamterName ci i)
          (some pk) e)))
    ∧ (∀ (c2 : Nat) (key2 : ResolveKey) (tag2 : Option String) (i2 : Nat)
        (pn : String) (pt : Option ResolveKey) (cause : RError),
        RError.rootCause (.injectFail c2 key2 tag2 i2 pn pt cause)
          = cause.rootCause)
    ∧ (resultRootCause (resolveF 4 0 (.cls 0) none twoLevelW).2
      = some (.notFound (.sym 9) none)) := by
  refine ⟨?_, fun c2 key2 tag2 i2 pn pt cause => rfl, by decide⟩
  simp only [resolveParams, paramAttempt, hp, hk, ht, if_true, hres]
  simp [hp, hk]

/-- Witness for `inject_failure_wrapped`: a resolver that fails with
NotFound makes the parameter loop produce the wrapping error with the
NotFound attached as cause. -/
theorem inject_failure_wrapped_witness :
    resolveParams (fun k t w2 => (w2, .error (.notFound k t)))
      ⟨"Foo", 1, [(0, ⟨some (.sym 9), none⟩)], ["bar"]⟩ 0 (.cls 0) none
      [0] twoLevelW
      = (twoLevelW, .error (.injectFail 0 (.cls 0) none 0 "bar"
          (some (.sym 9)) (.notFound (.sym 9) none))) := by
  have h := inject_failure_wrapped
    (fun k t w2 => (w2, .error (.notFound k t)))
    ⟨"Foo", 1, [(0, ⟨some (.sym 9), none⟩)], ["bar"]⟩ 0 (.cls 0) none
    0 [] twoLevelW twoLevelW ⟨some (.sym 9), none⟩ (.sym 9)
    (.notFound (.sym 9) none) (by decide) rfl rfl rfl
  exact h.1

end Tiny
